import Mathlib

/-!
Verification of the authentication / tenant-isolation core of the
insight-console backend (Cloudflare Workers, TypeScript).

Shallow embedding conventions:
* JS strings are modelled as `List Char` (`Str`).
* Timestamps are `Nat`: milliseconds since epoch for `Date` values
  (magic-link rows), seconds since epoch for JWT `iat`/`exp`
  (the source uses `Math.floor(Date.now() / 1000)`).
* Platform primitives that are not source code of this repository
  (Web Crypto SHA-256 / HMAC-SHA256, `JSON.stringify`/`JSON.parse`
  composed with `btoa`/`atob` base64url) are abstracted as the fields
  of a `Platform` record; theorems take the properties of these
  primitives they rely on as explicit hypotheses, and a concrete
  executable stand-in instantiates them in witnesses.
* The database (Neon PostgreSQL accessed through drizzle / the `neon`
  tagged-template client) is modelled as in-memory lists of rows, with
  SQL `SELECT ... LIMIT 1` as `List.find?`, `DELETE WHERE` as
  `List.filter`, and `UPDATE WHERE id = _` as `List.map`.
-/

namespace InsightConsole

/-- A JavaScript string, modelled as its list of characters. -/
abbrev Str := List Char

/-! ## JS `String.split(sep)` (for a single-character separator)

`splitOnChar sep s` follows the JavaScript semantics: the empty string
splits to `[""]`, and consecutive separators produce empty fields. -/

/-- JS `s.split(sep)` for a one-character separator. -/
def splitOnChar (sep : Char) : Str → List Str
  | [] => [[]]
  | c :: rest =>
    let r := splitOnChar sep rest
    if c = sep then [] :: r
    else
      match r with
      | [] => [[c]]
      | h :: t => (c :: h) :: t

theorem splitOnChar_ne_nil (sep : Char) (s : Str) : splitOnChar sep s ≠ [] := by
  cases s with
  | nil => simp [splitOnChar]
  | cons c rest =>
    simp only [splitOnChar]
    split
    · simp
    · split
      · simp
      · simp

theorem splitOnChar_of_not_mem (sep : Char) (s : Str) (h : sep ∉ s) :
    splitOnChar sep s = [s] := by
  induction s with
  | nil => rfl
  | cons c rest ih =>
    have hc : c ≠ sep := fun hce => h (hce ▸ List.mem_cons_self c rest)
    have hrest : sep ∉ rest := fun hm => h (List.mem_cons_of_mem c hm)
    simp only [splitOnChar, if_neg hc, ih hrest]

theorem splitOnChar_append (sep : Char) (a b : Str) (ha : sep ∉ a) :
    splitOnChar sep (a ++ sep :: b) = a :: splitOnChar sep b := by
  induction a with
  | nil => simp [splitOnChar]
  | cons c rest ih =>
    have hc : c ≠ sep := fun hce => ha (hce ▸ List.mem_cons_self c rest)
    have hrest : sep ∉ rest := fun hm => ha (List.mem_cons_of_mem c hm)
    simp only [List.cons_append, splitOnChar, if_neg hc]
    rw [List.append_eq, ih hrest]

theorem splitOnChar_three (sep : Char) (a b c : Str)
    (ha : sep ∉ a) (hb : sep ∉ b) (hc : sep ∉ c) :
    splitOnChar sep (a ++ sep :: (b ++ sep :: c)) = [a, b, c] := by
  rw [splitOnChar_append sep a _ ha, splitOnChar_append sep b _ hb,
    splitOnChar_of_not_mem sep c hc]

/-! ## Session tokens (`src/backend-workers/src/utils/jwt.ts`)

The TypeScript `JWTPayload` interface declares `exp : number`, but
`verifyToken` obtains the payload from an unvalidated `JSON.parse`
and guards the expiry check with JS truthiness (`payload.exp && ...`),
so at runtime `exp` may be absent or `0`; the model therefore carries
`exp : Option Nat`, with `none` for an absent claim. -/

/-- The claim fields the route handlers pass to `createToken`
(TS `Omit<JWTPayload, 'exp' | 'iat'>`). -/
structure Claims where
  user_id : Nat
  firm_id : Str
  email : Str
  role : Str
  deriving DecidableEq, Repr

/-- The decoded payload of a session token (TS `JWTPayload`, with
`exp` optional to reflect the unvalidated `JSON.parse`). -/
structure JWTPayload where
  user_id : Nat
  firm_id : Str
  email : Str
  role : Str
  iat : Nat
  exp : Option Nat
  deriving DecidableEq, Repr

/-- Platform primitives used by the auth core that are not source code
of this repository: `hash` is `hashToken` (SHA-256 hex digest of a
string, `utils/tokens.ts` delegating to Web Crypto), `encPayload` /
`decPayload` are `base64UrlEncode ∘ JSON.stringify` and its inverse
`JSON.parse ∘ base64UrlDecode`, and `mac` is `sign(data, secret)`
(HMAC-SHA256 then base64url, `utils/jwt.ts`). -/
structure Platform where
  hash : Str → Str
  encPayload : JWTPayload → Str
  decPayload : Str → Option JWTPayload
  mac : Str → Str → Str

/-- The constant `base64UrlEncode(JSON.stringify({alg:'HS256',typ:'JWT'}))`
computed by `createToken`. -/
def encodedHeader : Str := "eyJhbGciOiJIUzI1NiIsInR5cCI6IkpXVCJ9".data

/-- The full payload `createToken` builds from the caller's claims:
`iat = now`, `exp = now + expiresInMinutes * 60` (seconds). -/
def fullPayload (c : Claims) (iat exp : Nat) : JWTPayload :=
  ⟨c.user_id, c.firm_id, c.email, c.role, iat, some exp⟩

/-- `createToken(payload, secret, expiresInMinutes)` from `utils/jwt.ts`;
`now` is `Math.floor(Date.now() / 1000)`. -/
def createToken (P : Platform) (payload : Claims) (secret : Str)
    (expiresInMinutes : Nat) (now : Nat) : Str :=
  let exp := now + expiresInMinutes * 60
  let encodedPayload := P.encPayload (fullPayload payload now exp)
  let data := encodedHeader ++ '.' :: encodedPayload
  data ++ '.' :: P.mac data secret

/-- The errors `verifyToken` throws: `'Invalid token format'`,
`'Invalid signature'`, `'Token expired'`, plus the exception a failing
`JSON.parse` of the payload segment would raise. -/
inductive TokenError where
  | malformedToken
  | invalidSignature
  | tokenExpired
  | payloadUnreadable
  deriving DecidableEq, Repr

/-- `verifyToken(token, secret)` from `utils/jwt.ts`: split on `'.'`
into exactly three parts, recompute the HMAC over `header.payload`,
compare with the supplied signature, decode the payload, then reject
when `payload.exp && payload.exp < now`. -/
def verifyToken (P : Platform) (token secret : Str) (now : Nat) :
    Except TokenError JWTPayload :=
  match splitOnChar '.' token with
  | [encHeader, encPayload, signature] =>
    let data := encHeader ++ '.' :: encPayload
    if signature = P.mac data secret then
      match P.decPayload encPayload with
      | none => .error .payloadUnreadable
      | some payload =>
        match payload.exp with
        | some e => if e ≠ 0 ∧ e < now then .error .tokenExpired else .ok payload
        | none => .ok payload
    else .error .invalidSignature
  | _ => .error .malformedToken

/-- A token assembled directly from a payload by signing
`encodedHeader.encPayload(p)` — the shape `createToken` produces, but
for an arbitrary payload (used to examine tokens whose `exp` claim is
absent or zero). -/
def signedToken (P : Platform) (p : JWTPayload) (secret : Str) : Str :=
  let data := encodedHeader ++ '.' :: P.encPayload p
  data ++ '.' :: P.mac data secret

/-! ## Magic-link store and auth route handlers
(`src/backend-workers/src/db/schema.ts`,
`src/backend-workers/src/routes/auth.ts`) -/

/-- A row of `magic_link_tokens` (drizzle schema): `expires_at` and
`used_at` are `Date` values, modelled in milliseconds. -/
structure MagicLinkRow where
  id : Nat
  email : Str
  token_hash : Str
  expires_at : Nat
  used_at : Option Nat
  deriving DecidableEq, Repr

/-- A row of `users`: `full_name` and `firm_id` are nullable columns,
`role` defaults to `'consultant'`. -/
structure UserRow where
  id : Nat
  email : Str
  full_name : Option Str
  firm_id : Option Str
  role : Str
  deriving DecidableEq, Repr

/-- The slice of database state the auth routes touch, with the serial
primary-key counters made explicit. -/
structure DBState where
  tokens : List MagicLinkRow
  users : List UserRow
  nextTokenId : Nat
  nextUserId : Nat
  deriving DecidableEq, Repr

/-- The `WHERE email = _ AND token_hash = _` predicate of the
verify handler's SELECT. -/
def tokenMatches (email tokenHash : Str) (r : MagicLinkRow) : Bool :=
  r.email == email && r.token_hash == tokenHash

/-- The verify handler's lookup:
`SELECT ... FROM magic_link_tokens WHERE email = _ AND token_hash = hash(token) LIMIT 1`. -/
def findToken (P : Platform) (email token : Str) (db : DBState) :
    Option MagicLinkRow :=
  db.tokens.find? (tokenMatches email (P.hash token))

/-- `POST /auth/request-magic-link` (`routes/auth.ts`): delete every
`magic_link_tokens` row for the email, then insert a fresh row with
`expires_at = now + 15 * 60 * 1000`. The raw token — produced by
`generateToken()`, 32 random bytes base64url-encoded — is passed in as
a parameter, making the randomness explicit. `now` is in ms. -/
def requestMagicLink (P : Platform) (email rawToken : Str) (now : Nat)
    (db : DBState) : DBState :=
  let kept := db.tokens.filter (fun r => !(r.email == email))
  let newRow : MagicLinkRow :=
    ⟨db.nextTokenId, email, P.hash rawToken, now + 15 * 60 * 1000, none⟩
  { db with tokens := kept ++ [newRow], nextTokenId := db.nextTokenId + 1 }

/-- The response classes of `GET /auth/verify-magic-link`:
the three 401 bodies (`'Invalid login link'`, expired, already used)
and the 200 success body carrying both tokens and the user object. -/
inductive VerifyOutcome where
  | invalidLink
  | linkExpired
  | linkAlreadyUsed
  | success (accessToken refreshToken : Str) (userId : Nat)
      (userEmail : Str) (userFullName : Option Str) (userRole : Str)
  deriving DecidableEq, Repr

/-- Whether a verify outcome is the HTTP 200 success response. -/
def VerifyOutcome.isSuccess : VerifyOutcome → Bool
  | .success _ _ _ _ _ _ => true
  | _ => false

/-- The claims object the verify handler passes to `createToken`:
`{ user_id, firm_id: user.firm_id || '', email, role }`. JS `||`
yields `''` when `firm_id` is `null` and the stored string otherwise
(an empty stored string also yields `''`, which coincides with
`Option.getD`). -/
def claimsOf (u : UserRow) : Claims :=
  ⟨u.id, u.firm_id.getD [], u.email, u.role⟩

/-- `email.split('@')[0]`, the default `full_name` at auto-provisioning. -/
def localPart (email : Str) : Str := email.takeWhile (fun c => c ≠ '@')

/-- The handler's `UPDATE magic_link_tokens SET used_at = now WHERE id = _`:
unconditional on `used_at` — it matches on the primary key alone. -/
def markUsed (rowId now : Nat) (l : List MagicLinkRow) : List MagicLinkRow :=
  l.map fun r => if r.id = rowId then { r with used_at := some now } else r

/-- What the read phase of the verify handler decides before any write:
halt with a 401 body, or proceed holding the row it read. -/
inductive ReadStep where
  | halt (e : VerifyOutcome)
  | proceed (stored : MagicLinkRow)
  deriving DecidableEq, Repr

/-- The read phase of `GET /auth/verify-magic-link` (`routes/auth.ts`):
SELECT by `(email, hash(token))`, then `new Date() > expires_at`, then
`used_at` non-null; each failing check short-circuits to a 401. -/
def verifyRead (P : Platform) (email token : Str) (now : Nat)
    (db : DBState) : ReadStep :=
  match findToken P email token db with
  | none => .halt .invalidLink
  | some stored =>
    if stored.expires_at < now then .halt .linkExpired
    else if stored.used_at.isSome then .halt .linkAlreadyUsed
    else .proceed stored

/-- The write phase of `GET /auth/verify-magic-link`: mark the row used,
get-or-create the user (auto-provisioning sets `email`, `full_name`
(the local part), `role = 'consultant'`, and no `firm_id`), then issue
the access (60 min) and refresh (10080 min) tokens; JWT times use
`now / 1000` seconds. -/
def verifyCommit (P : Platform) (secret email : Str) (now : Nat)
    (stored : MagicLinkRow) (db : DBState) : VerifyOutcome × DBState :=
  let db1 : DBState := { db with tokens := markUsed stored.id now db.tokens }
  match db1.users.find? (fun u => u.email == email) with
  | some user =>
    (.success (createToken P (claimsOf user) secret 60 (now / 1000))
      (createToken P (claimsOf user) secret 10080 (now / 1000))
      user.id user.email user.full_name user.role, db1)
  | none =>
    let user : UserRow :=
      ⟨db1.nextUserId, email, some (localPart email), none, "consultant".data⟩
    let db2 : DBState :=
      { db1 with users := db1.users ++ [user], nextUserId := db1.nextUserId + 1 }
    (.success (createToken P (claimsOf user) secret 60 (now / 1000))
      (createToken P (claimsOf user) secret 10080 (now / 1000))
      user.id user.email user.full_name user.role, db2)

/-- `GET /auth/verify-magic-link` end to end: the read phase followed —
when it proceeds — by the write phase. Sequentially this is exactly the
handler; the two phases are split so that interleavings of concurrent
requests against the shared store can also be examined. -/
def verifyMagicLink (P : Platform) (secret email token : Str) (now : Nat)
    (db : DBState) : VerifyOutcome × DBState :=
  match verifyRead P email token now db with
  | .halt e => (e, db)
  | .proceed stored => verifyCommit P secret email now stored db

/-! ## Rate limiter (`src/backend-workers/src/middleware/rateLimit.ts`)

The KV entry for one key, and one `consume` step of the fixed-window
counter. KV TTL eviction is not modelled separately: the entry's TTL is
always set to expire exactly at `resetAt`, and the code's
`data.resetAt > now` guard already treats a stale entry as absent. -/

/-- The JSON value stored in KV for a rate-limit key. -/
structure RLData where
  count : Nat
  resetAt : Nat
  deriving DecidableEq, Repr

/-- The middleware's decision: allow (with the `X-RateLimit-Remaining`
value) or reject with HTTP 429 and `retry_after`. -/
inductive RLResult where
  | allowed (remaining : Nat)
  | limited (retryAfter : Nat)
  deriving DecidableEq, Repr

/-- One request through the `rateLimit` middleware for a fixed key:
within the window (`data.resetAt > now`) it rejects at `count >= limit`
with `retryAfter = resetAt - now`, else increments preserving
`resetAt`; otherwise it starts a fresh window `{count: 1, resetAt:
now + windowSeconds}`. Returns the decision and the KV entry after the
request. Times are in seconds (`Math.floor(Date.now() / 1000)`). -/
def rateLimitStep (limit windowSeconds now : Nat) (st : Option RLData) :
    RLResult × Option RLData :=
  match st with
  | some data =>
    if now < data.resetAt then
      if limit ≤ data.count then
        (.limited (data.resetAt - now), some data)
      else
        (.allowed (limit - (data.count + 1)), some ⟨data.count + 1, data.resetAt⟩)
    else
      (.allowed (limit - 1), some ⟨1, now + windowSeconds⟩)
  | none =>
    (.allowed (limit - 1), some ⟨1, now + windowSeconds⟩)

/-! ## Tenant isolation (`firmIsolation` middleware, src/unnamed/part_002)

The middleware also returns 401 when no authenticated user is in
context and 400 when the id path parameter is missing; the claims below
quantify over authenticated callers with a resource id present, so the
model takes the caller's `firm_id` and the parsed numeric id as given. -/

/-- A row of `deals` restricted to what the isolation queries read. -/
structure DealRow where
  id : Nat
  firm_id : Str
  deriving DecidableEq, Repr

/-- A row of `documents` restricted to what the isolation queries read. -/
structure DocumentRow where
  id : Nat
  deal_id : Nat
  deriving DecidableEq, Repr

/-- A row of `workflows` restricted to what the isolation queries read. -/
structure WorkflowRow where
  id : Nat
  deal_id : Nat
  deriving DecidableEq, Repr

/-- The tables the tenant-isolation middleware queries. -/
structure IsoDB where
  deals : List DealRow
  documents : List DocumentRow
  workflows : List WorkflowRow
  deriving DecidableEq, Repr

/-- The middleware's verdict: HTTP 404, HTTP 403, or fall through to
the route handler (`await next()`). -/
inductive AccessDecision where
  | notFound
  | forbidden
  | proceed
  deriving DecidableEq, Repr

/-- `enforceDealAccess`: `SELECT firm_id FROM deals WHERE id = _`;
empty result is 404, `firm_id !== user.firm_id` is 403, else proceed. -/
def enforceDealAccess (userFirmId : Str) (dealId : Nat) (db : IsoDB) :
    AccessDecision :=
  match db.deals.find? (fun d => d.id == dealId) with
  | none => .notFound
  | some deal =>
    if deal.firm_id ≠ userFirmId then .forbidden else .proceed

/-- `enforceDocumentAccess`: `SELECT d.firm_id FROM documents doc JOIN
deals d ON doc.deal_id = d.id WHERE doc.id = _`; the join yields no row
when either the document or its parent deal is missing. -/
def enforceDocumentAccess (userFirmId : Str) (documentId : Nat) (db : IsoDB) :
    AccessDecision :=
  match db.documents.find? (fun doc => doc.id == documentId) with
  | none => .notFound
  | some doc =>
    match db.deals.find? (fun d => d.id == doc.deal_id) with
    | none => .notFound
    | some deal =>
      if deal.firm_id ≠ userFirmId then .forbidden else .proceed

/-- `enforceWorkflowAccess`: as for documents, resolving the owning
firm through the workflow's parent deal. -/
def enforceWorkflowAccess (userFirmId : Str) (workflowId : Nat) (db : IsoDB) :
    AccessDecision :=
  match db.workflows.find? (fun w => w.id == workflowId) with
  | none => .notFound
  | some w =>
    match db.deals.find? (fun d => d.id == w.deal_id) with
    | none => .notFound
    | some deal =>
      if deal.firm_id ≠ userFirmId then .forbidden else .proceed

/-- The owning firm of a deal, as the spec describes it: the `firm_id`
of the deal row, when the deal exists. -/
def dealOwner (db : IsoDB) (dealId : Nat) : Option Str :=
  (db.deals.find? (fun d => d.id == dealId)).map (fun d => d.firm_id)

/-- The owning firm of a document, resolved transitively through its
parent deal. -/
def documentOwner (db : IsoDB) (documentId : Nat) : Option Str :=
  (db.documents.find? (fun doc => doc.id == documentId)).bind
    (fun doc => dealOwner db doc.deal_id)

/-- The owning firm of a workflow, resolved transitively through its
parent deal. -/
def workflowOwner (db : IsoDB) (workflowId : Nat) : Option Str :=
  (db.workflows.find? (fun w => w.id == workflowId)).bind
    (fun w => dealOwner db w.deal_id)

/-! ## Concrete executable stand-in for the platform primitives

Witnesses and counterexamples need a computable `Platform`. The real
primitives (SHA-256, HMAC-SHA256, JSON + base64url) live in the Web
Crypto / JS runtime, outside this repository's source; the stand-in
below keeps exactly the properties the theorems hypothesise about them
(an injective digest, a payload coding with a left inverse whose output
contains no `'.'`, a MAC whose output contains no `'.'`), and every
hypothesis is discharged at the concrete values a witness uses. -/

/-- Decimal digits of a `Nat` (dot-free, never empty). -/
def encNat (n : Nat) : Str := Nat.toDigits 10 n

/-- Parse a decimal digit. -/
def decDigit (c : Char) : Option Nat :=
  if '0' ≤ c ∧ c ≤ '9' then some (c.toNat - '0'.toNat) else none

/-- Parse a nonempty decimal string. -/
def decNat (s : Str) : Option Nat :=
  match s with
  | [] => none
  | _ => s.foldlM (fun acc c => (decDigit c).map (fun d => acc * 10 + d)) 0

/-- Encode a string as the comma-separated decimal codes of its
characters (dot-free, semicolon-free). -/
def encStrField (s : Str) : Str :=
  List.intercalate [','] (s.map (fun c => encNat c.toNat))

/-- Inverse of `encStrField`. -/
def decStrField (s : Str) : Option Str :=
  match s with
  | [] => some []
  | _ => (splitOnChar ',' s).mapM (fun t => (decNat t).map Char.ofNat)

/-- Encode an optional `exp` claim: `'n'` for an absent claim. -/
def encExpField : Option Nat → Str
  | none => ['n']
  | some e => encNat e

/-- Inverse of `encExpField`. -/
def decExpField (s : Str) : Option (Option Nat) :=
  if s = ['n'] then some none else (decNat s).map some

/-- Stand-in payload coding: the six payload fields joined with `';'`.
Its output contains only digits, `','`, `';'` and `'n'` — never `'.'`. -/
def encPayloadC (p : JWTPayload) : Str :=
  List.intercalate [';']
    [encNat p.user_id, encStrField p.firm_id, encStrField p.email,
      encStrField p.role, encNat p.iat, encExpField p.exp]

/-- Left inverse of `encPayloadC`. -/
def decPayloadC (s : Str) : Option JWTPayload :=
  match splitOnChar ';' s with
  | [u, f, e, r, i, x] =>
    match decNat u, decStrField f, decStrField e, decStrField r,
        decNat i, decExpField x with
    | some u', some f', some e', some r', some i', some x' =>
      some ⟨u', f', e', r', i', x'⟩
    | _, _, _, _, _, _ => none
  | _ => none

/-- Stand-in digest: prefixes a marker character (injective, as a
cryptographic hash is collision-free in practice). -/
def hashC (s : Str) : Str := '#' :: s

/-- Stand-in MAC: key and message joined with a marker, with `'.'`
replaced so the output is always dot-free, as base64url output is. -/
def macC (data secret : Str) : Str :=
  (secret ++ '|' :: data).map (fun c => if c = '.' then '!' else c)

/-- The concrete platform used by witnesses and counterexamples. -/
def CP : Platform := ⟨hashC, encPayloadC, decPayloadC, macC⟩

deriving instance DecidableEq for Except

/-! ## Claim C1 — tenant isolation -/

/-- C1: for every authenticated caller and every resource id of kind
deal, document, or workflow, the tenant-isolation check returns
NotFound (404) when no resource with that id exists (for documents and
workflows, when the join through the parent deal yields no owner),
Forbidden (403) when the resource exists but its owning firm id differs
from the caller's firm id, and lets the request proceed only when the
owning firm id equals the caller's firm id; documents and workflows
resolve their owning firm transitively through their parent deal. -/
theorem tenant_isolation_spec (db : IsoDB) (callerFirmId : Str) (rid : Nat) :
    (dealOwner db rid = none →
      enforceDealAccess callerFirmId rid db = .notFound)
  ∧ (∀ f, dealOwner db rid = some f → f ≠ callerFirmId →
      enforceDealAccess callerFirmId rid db = .forbidden)
  ∧ (∀ f, dealOwner db rid = some f → f = callerFirmId →
      enforceDealAccess callerFirmId rid db = .proceed)
  ∧ (documentOwner db rid = none →
      enforceDocumentAccess callerFirmId rid db = .notFound)
  ∧ (∀ f, documentOwner db rid = some f → f ≠ callerFirmId →
      enforceDocumentAccess callerFirmId rid db = .forbidden)
  ∧ (∀ f, documentOwner db rid = some f → f = callerFirmId →
      enforceDocumentAccess callerFirmId rid db = .proceed)
  ∧ (workflowOwner db rid = none →
      enforceWorkflowAccess callerFirmId rid db = .notFound)
  ∧ (∀ f, workflowOwner db rid = some f → f ≠ callerFirmId →
      enforceWorkflowAccess callerFirmId rid db = .forbidden)
  ∧ (∀ f, workflowOwner db rid = some f → f = callerFirmId →
      enforceWorkflowAccess callerFirmId rid db = .proceed) := by
  refine ⟨?_, ?_, ?_, ?_, ?_, ?_, ?_, ?_, ?_⟩
  · intro h
    cases hd : db.deals.find? (fun d => d.id == rid) with
    | none => simp only [enforceDealAccess, hd]
    | some deal => simp [dealOwner, hd] at h
  · intro f hf hne
    cases hd : db.deals.find? (fun d => d.id == rid) with
    | none => simp [dealOwner, hd] at hf
    | some deal =>
      simp only [dealOwner, hd, Option.map_some', Option.some.injEq] at hf
      simp only [enforceDealAccess, hd, if_pos (hf ▸ hne)]
  · intro f hf he
    cases hd : db.deals.find? (fun d => d.id == rid) with
    | none => simp [dealOwner, hd] at hf
    | some deal =>
      simp only [dealOwner, hd, Option.map_some', Option.some.injEq] at hf
      have : ¬ deal.firm_id ≠ callerFirmId := by simp [hf, he]
      simp only [enforceDealAccess, hd, if_neg this]
  · intro h
    cases hd : db.documents.find? (fun d => d.id == rid) with
    | none => simp only [enforceDocumentAccess, hd]
    | some doc =>
      cases hdl : db.deals.find? (fun d => d.id == doc.deal_id) with
      | none => simp only [enforceDocumentAccess, hd, hdl]
      | some deal => simp [documentOwner, dealOwner, hd, hdl] at h
  · intro f hf hne
    cases hd : db.documents.find? (fun d => d.id == rid) with
    | none => simp [documentOwner, hd] at hf
    | some doc =>
      cases hdl : db.deals.find? (fun d => d.id == doc.deal_id) with
      | none => simp [documentOwner, dealOwner, hd, hdl] at hf
      | some deal =>
        simp only [documentOwner, dealOwner, hd, hdl, Option.some_bind,
          Option.map_some', Option.some.injEq] at hf
        simp only [enforceDocumentAccess, hd, hdl, if_pos (hf ▸ hne)]
  · intro f hf he
    cases hd : db.documents.find? (fun d => d.id == rid) with
    | none => simp [documentOwner, hd] at hf
    | some doc =>
      cases hdl : db.deals.find? (fun d => d.id == doc.deal_id) with
      | none => simp [documentOwner, dealOwner, hd, hdl] at hf
      | some deal =>
        simp only [documentOwner, dealOwner, hd, hdl, Option.some_bind,
          Option.map_some', Option.some.injEq] at hf
        have : ¬ deal.firm_id ≠ callerFirmId := by simp [hf, he]
        simp only [enforceDocumentAccess, hd, hdl, if_neg this]
  · intro h
    cases hd : db.workflows.find? (fun w => w.id == rid) with
    | none => simp only [enforceWorkflowAccess, hd]
    | some w =>
      cases hdl : db.deals.find? (fun d => d.id == w.deal_id) with
      | none => simp only [enforceWorkflowAccess, hd, hdl]
      | some deal => simp [workflowOwner, dealOwner, hd, hdl] at h
  · intro f hf hne
    cases hd : db.workflows.find? (fun w => w.id == rid) with
    | none => simp [workflowOwner, hd] at hf
    | some w =>
      cases hdl : db.deals.find? (fun d => d.id == w.deal_id) with
      | none => simp [workflowOwner, dealOwner, hd, hdl] at hf
      | some deal =>
        simp only [workflowOwner, dealOwner, hd, hdl, Option.some_bind,
          Option.map_some', Option.some.injEq] at hf
        simp only [enforceWorkflowAccess, hd, hdl, if_pos (hf ▸ hne)]
  · intro f hf he
    cases hd : db.workflows.find? (fun w => w.id == rid) with
    | none => simp [workflowOwner, hd] at hf
    | some w =>
      cases hdl : db.deals.find? (fun d => d.id == w.deal_id) with
      | none => simp [workflowOwner, dealOwner, hd, hdl] at hf
      | some deal =>
        simp only [workflowOwner, dealOwner, hd, hdl, Option.some_bind,
          Option.map_some', Option.some.injEq] at hf
        have : ¬ deal.firm_id ≠ callerFirmId := by simp [hf, he]
        simp only [enforceWorkflowAccess, hd, hdl, if_neg this]

/-- A small concrete database for the tenant-isolation witness: one
deal owned by firm `A`, with one document and one workflow under it. -/
def isoDB0 : IsoDB :=
  ⟨[⟨1, "A".data⟩], [⟨10, 1⟩], [⟨20, 1⟩]⟩

/-- Witness for C1: on `isoDB0`, a missing deal id gives NotFound, a
caller from firm `B` gets Forbidden on the deal and on its document and
workflow, and the owner firm `A` proceeds on all three kinds. -/
theorem tenant_isolation_spec_witness :
    enforceDealAccess "A".data 2 isoDB0 = .notFound
  ∧ enforceDealAccess "B".data 1 isoDB0 = .forbidden
  ∧ enforceDealAccess "A".data 1 isoDB0 = .proceed
  ∧ enforceDocumentAccess "A".data 11 isoDB0 = .notFound
  ∧ enforceDocumentAccess "B".data 10 isoDB0 = .forbidden
  ∧ enforceDocumentAccess "A".data 10 isoDB0 = .proceed
  ∧ enforceWorkflowAccess "A".data 21 isoDB0 = .notFound
  ∧ enforceWorkflowAccess "B".data 20 isoDB0 = .forbidden
  ∧ enforceWorkflowAccess "A".data 20 isoDB0 = .proceed :=
  ⟨(tenant_isolation_spec isoDB0 "A".data 2).1 (by decide),
   (tenant_isolation_spec isoDB0 "B".data 1).2.1 "A".data (by decide) (by decide),
   (tenant_isolation_spec isoDB0 "A".data 1).2.2.1 "A".data (by decide) (by decide),
   (tenant_isolation_spec isoDB0 "A".data 11).2.2.2.1 (by decide),
   (tenant_isolation_spec isoDB0 "B".data 10).2.2.2.2.1 "A".data (by decide) (by decide),
   (tenant_isolation_spec isoDB0 "A".data 10).2.2.2.2.2.1 "A".data (by decide) (by decide),
   (tenant_isolation_spec isoDB0 "A".data 21).2.2.2.2.2.2.1 (by decide),
   (tenant_isolation_spec isoDB0 "B".data 20).2.2.2.2.2.2.2.1 "A".data (by decide) (by decide),
   (tenant_isolation_spec isoDB0 "A".data 20).2.2.2.2.2.2.2.2 "A".data (by decide) (by decide)⟩

/-! ## Claims C6, C7, C9 — session tokens -/

/-- Verifying a properly signed token under the same secret: the split
recovers the three segments, the recomputed MAC matches, the payload
decodes, and only the expiry guard remains. -/
theorem verifyToken_signedToken (P : Platform) (p : JWTPayload)
    (secret : Str) (now : Nat)
    (hdec : P.decPayload (P.encPayload p) = some p)
    (hnd : '.' ∉ P.encPayload p)
    (hmacnd : '.' ∉ P.mac (encodedHeader ++ '.' :: P.encPayload p) secret) :
    verifyToken P (signedToken P p secret) secret now =
      match p.exp with
      | some e => if e ≠ 0 ∧ e < now then .error .tokenExpired else .ok p
      | none => .ok p := by
  have hh : ('.' : Char) ∉ encodedHeader := by decide
  have e1 : signedToken P p secret
      = encodedHeader ++ '.' ::
          (P.encPayload p ++ '.' ::
            P.mac (encodedHeader ++ '.' :: P.encPayload p) secret) := by
    simp [signedToken]
  rw [e1]
  simp only [verifyToken]
  rw [splitOnChar_three '.' _ _ _ hh hnd hmacnd]
  simp only [if_pos rfl, hdec, if_true]

/-- `createToken` is `signedToken` at the payload it assembles. -/
theorem createToken_eq_signedToken (P : Platform) (c : Claims)
    (secret : Str) (ttl now : Nat) :
    createToken P c secret ttl now
      = signedToken P (fullPayload c now (now + ttl * 60)) secret := rfl

/-- C6: for every claims value, verifying a session token issued from
those claims with a 60-minute TTL, under the same secret and before
expiry (here at the issuance instant), returns the claims unchanged —
the decoded payload is exactly the input claims plus `iat = t0` and
`exp = t0 + 3600` — and verifying the same token 61 minutes (3660 s)
after issuance returns TokenExpired. -/
theorem session_token_roundtrip_and_expiry (P : Platform) (c : Claims)
    (secret : Str) (t0 : Nat)
    (hdec : P.decPayload (P.encPayload (fullPayload c t0 (t0 + 3600)))
      = some (fullPayload c t0 (t0 + 3600)))
    (hnd : '.' ∉ P.encPayload (fullPayload c t0 (t0 + 3600)))
    (hmacnd : '.' ∉ P.mac
      (encodedHeader ++ '.' :: P.encPayload (fullPayload c t0 (t0 + 3600)))
      secret) :
    verifyToken P (createToken P c secret 60 t0) secret t0
      = .ok (fullPayload c t0 (t0 + 3600))
  ∧ verifyToken P (createToken P c secret 60 t0) secret (t0 + 3660)
      = .error .tokenExpired := by
  have hct : createToken P c secret 60 t0
      = signedToken P (fullPayload c t0 (t0 + 3600)) secret := rfl
  constructor
  · rw [hct, verifyToken_signedToken P _ secret t0 hdec hnd hmacnd]
    have : ¬ (t0 + 3600 ≠ 0 ∧ t0 + 3600 < t0) := by omega
    simp only [fullPayload, if_neg this]
  · rw [hct, verifyToken_signedToken P _ secret (t0 + 3660) hdec hnd hmacnd]
    have : t0 + 3600 ≠ 0 ∧ t0 + 3600 < t0 + 3660 := by omega
    simp only [fullPayload, if_pos this]

/-- The concrete claims, secret and issuance time of the session-token
witnesses. -/
def jwtC0 : Claims := ⟨7, "F1".data, "u@x.com".data, "consultant".data⟩

/-- Witness secret for the session-token claims. -/
def jwtSec : Str := "server-secret".data

/-- Witness for C6: the round trip and the 61-minute expiry at the
concrete claims `jwtC0`, secret `jwtSec`, issuance time 1000. -/
theorem session_token_roundtrip_and_expiry_witness :
    verifyToken CP (createToken CP jwtC0 jwtSec 60 1000) jwtSec 1000
      = .ok (fullPayload jwtC0 1000 4600)
  ∧ verifyToken CP (createToken CP jwtC0 jwtSec 60 1000) jwtSec 4660
      = .error .tokenExpired :=
  session_token_roundtrip_and_expiry CP jwtC0 jwtSec 1000
    (by decide) (by decide) (by decide)

/-- C9: session-token verification skips the expiry check whenever the
decoded payload's `exp` field is absent or equal to 0: a correctly
signed token with no `exp` claim (or `exp = 0`) is accepted and its
claims returned at every verification time `now`. -/
theorem token_without_exp_never_expires (P : Platform) (p : JWTPayload)
    (secret : Str) (now : Nat)
    (hexp : p.exp = none ∨ p.exp = some 0)
    (hdec : P.decPayload (P.encPayload p) = some p)
    (hnd : '.' ∉ P.encPayload p)
    (hmacnd : '.' ∉ P.mac (encodedHeader ++ '.' :: P.encPayload p) secret) :
    verifyToken P (signedToken P p secret) secret now = .ok p := by
  rw [verifyToken_signedToken P p secret now hdec hnd hmacnd]
  rcases hexp with h0 | h0 <;> rw [h0]
  simp

/-- A payload with no `exp` claim. -/
def noExpPayload : JWTPayload :=
  ⟨7, "F1".data, "u@x.com".data, "consultant".data, 1000, none⟩

/-- A payload with `exp = 0`. -/
def zeroExpPayload : JWTPayload :=
  ⟨7, "F1".data, "u@x.com".data, "consultant".data, 1000, some 0⟩

/-- Witness for C9: both the `exp`-less and the `exp = 0` signed tokens
verify successfully one billion seconds after issuance. -/
theorem token_without_exp_never_expires_witness :
    verifyToken CP (signedToken CP noExpPayload jwtSec) jwtSec 1000000000
      = .ok noExpPayload
  ∧ verifyToken CP (signedToken CP zeroExpPayload jwtSec) jwtSec 1000000000
      = .ok zeroExpPayload :=
  ⟨token_without_exp_never_expires CP noExpPayload jwtSec 1000000000
      (Or.inl (by decide)) (by decide) (by decide) (by decide),
   token_without_exp_never_expires CP zeroExpPayload jwtSec 1000000000
      (Or.inr (by decide)) (by decide) (by decide) (by decide)⟩

/-- The encoded payload segment of the C7 counterexample's valid token. -/
def c7payload : Str := CP.encPayload (fullPayload jwtC0 0 3600)

/-- The signature of the C7 counterexample's valid token. -/
def c7sig : Str := CP.mac (encodedHeader ++ '.' :: c7payload) jwtSec

/-- `c7payload` with its first character replaced by `'.'` — a
single-character alteration of the payload segment. -/
def c7tampered : Str := c7payload.set 0 '.'

set_option maxRecDepth 10000 in
/-- Counterexample to C7 as stated: the token below is valid (verifies
to the full payload), yet altering the single character at index 0 of
its payload segment — to `'.'` — while keeping its signature makes
verification return MalformedToken, not InvalidSignature: the altered
token splits into four dot-separated parts. -/
theorem tamper_single_char_counterexample :
    verifyToken CP (encodedHeader ++ '.' :: (c7payload ++ '.' :: c7sig))
      jwtSec 0 = .ok (fullPayload jwtC0 0 3600)
  ∧ c7tampered.length = c7payload.length
  ∧ c7tampered ≠ c7payload
  ∧ c7tampered.drop 1 = c7payload.drop 1
  ∧ verifyToken CP (encodedHeader ++ '.' :: (c7tampered ++ '.' :: c7sig))
      jwtSec 0 = .error .malformedToken
  ∧ TokenError.malformedToken ≠ TokenError.invalidSignature := by decide

/-- C7 as amended: for every input string, session-token verification
fails with MalformedToken unless the string splits into exactly three
dot-separated parts, and — for a three-part token — fails with
InvalidSignature whenever the supplied signature differs byte-for-byte
from the HMAC of the first two parts under the server secret; altering
a single character of a valid token's payload segment while keeping its
signature therefore yields InvalidSignature when the altered character
is not the `'.'` separator (and the MAC of the altered data does not
collide with the kept signature), and MalformedToken when it is;
neither case ever returns claims. -/
theorem tamper_detection_amended (P : Platform) (secret : Str) (now : Nat) :
    (∀ token, (splitOnChar '.' token).length ≠ 3 →
      verifyToken P token secret now = .error .malformedToken)
  ∧ (∀ eh ep sig, '.' ∉ eh → '.' ∉ ep → '.' ∉ sig →
      sig ≠ P.mac (eh ++ '.' :: ep) secret →
      verifyToken P (eh ++ '.' :: (ep ++ '.' :: sig)) secret now
        = .error .invalidSignature)
  ∧ (∀ eh a b sig, '.' ∉ eh → '.' ∉ a → '.' ∉ b → '.' ∉ sig →
      verifyToken P (eh ++ '.' :: ((a ++ '.' :: b) ++ '.' :: sig)) secret now
        = .error .malformedToken) := by
  refine ⟨?_, ?_, ?_⟩
  · intro token hlen
    simp only [verifyToken]
    rcases h3 : splitOnChar '.' token with _ | ⟨a, _ | ⟨b, _ | ⟨c, _ | ⟨d, t⟩⟩⟩⟩
    · rfl
    · rfl
    · rfl
    · exact absurd (by rw [h3]; rfl) hlen
    · rfl
  · intro eh ep sig hh hp hs hne
    simp only [verifyToken]
    rw [splitOnChar_three '.' _ _ _ hh hp hs]
    simp only [if_neg hne]
  · intro eh a b sig hh ha hb hs
    have e1 : (a ++ '.' :: b) ++ '.' :: sig = a ++ '.' :: (b ++ '.' :: sig) := by
      simp
    simp only [verifyToken]
    rw [e1, splitOnChar_append '.' eh _ hh, splitOnChar_append '.' a _ ha,
      splitOnChar_append '.' b _ hb, splitOnChar_of_not_mem '.' sig hs]

/-- Witness for the amended C7: a dotless string is malformed; a
three-part token whose third part differs from the recomputed MAC is
rejected as InvalidSignature; a payload segment containing a dot makes
the token malformed. All at the concrete platform `CP`. -/
theorem tamper_detection_amended_witness :
    verifyToken CP "notatoken".data jwtSec 0 = .error .malformedToken
  ∧ verifyToken CP (encodedHeader ++ '.' :: ("5;;97;98;0;9".data ++ '.' :: "bogus".data))
      jwtSec 0 = .error .invalidSignature
  ∧ verifyToken CP (encodedHeader ++ '.' :: (("5;;97".data ++ '.' :: ";98;0;9".data) ++ '.' :: "bogus".data))
      jwtSec 0 = .error .malformedToken :=
  ⟨(tamper_detection_amended CP jwtSec 0).1 "notatoken".data (by decide),
   (tamper_detection_amended CP jwtSec 0).2.1 encodedHeader "5;;97;98;0;9".data
     "bogus".data (by decide) (by decide) (by decide) (by decide),
   (tamper_detection_amended CP jwtSec 0).2.2 encodedHeader "5;;97".data
     ";98;0;9".data "bogus".data (by decide) (by decide) (by decide) (by decide)⟩

/-! ## Claim C8 — rate limiter -/

/-- C8: for every key, with `limit = 3` and `windowSeconds = 3600`,
four consume calls within one window yield Allowed, Allowed, Allowed,
then RateLimited with `retryAfterSeconds = windowResetAt - now`; a
further call made after the window has elapsed (`now >= windowResetAt`)
is Allowed and starts a fresh window with count 1 and
`windowResetAt = now + windowSeconds`, while the in-window increments
preserve the original `windowResetAt` (visible in every intermediate
KV state below). -/
theorem rate_limit_fixed_window (t0 t1 t2 t3 t4 : Nat)
    (h1 : t1 < t0 + 3600) (h2 : t2 < t0 + 3600) (h3 : t3 < t0 + 3600)
    (h4 : t0 + 3600 ≤ t4) :
    rateLimitStep 3 3600 t0 none = (.allowed 2, some ⟨1, t0 + 3600⟩)
  ∧ rateLimitStep 3 3600 t1 (some ⟨1, t0 + 3600⟩)
      = (.allowed 1, some ⟨2, t0 + 3600⟩)
  ∧ rateLimitStep 3 3600 t2 (some ⟨2, t0 + 3600⟩)
      = (.allowed 0, some ⟨3, t0 + 3600⟩)
  ∧ rateLimitStep 3 3600 t3 (some ⟨3, t0 + 3600⟩)
      = (.limited (t0 + 3600 - t3), some ⟨3, t0 + 3600⟩)
  ∧ rateLimitStep 3 3600 t4 (some ⟨3, t0 + 3600⟩)
      = (.allowed 2, some ⟨1, t4 + 3600⟩) := by
  refine ⟨rfl, ?_, ?_, ?_, ?_⟩
  · simp only [rateLimitStep, if_pos h1, if_neg (by omega : ¬ 3 ≤ 1)]
  · simp only [rateLimitStep, if_pos h2, if_neg (by omega : ¬ 3 ≤ 2)]
  · simp only [rateLimitStep, if_pos h3, if_pos (by omega : 3 ≤ 3)]
  · simp only [rateLimitStep, if_neg (by omega : ¬ t4 < t0 + 3600)]

/-- Witness for C8: the five calls at times 0, 1, 2, 3 and 3600. -/
theorem rate_limit_fixed_window_witness :
    rateLimitStep 3 3600 0 none = (.allowed 2, some ⟨1, 3600⟩)
  ∧ rateLimitStep 3 3600 1 (some ⟨1, 3600⟩) = (.allowed 1, some ⟨2, 3600⟩)
  ∧ rateLimitStep 3 3600 2 (some ⟨2, 3600⟩) = (.allowed 0, some ⟨3, 3600⟩)
  ∧ rateLimitStep 3 3600 3 (some ⟨3, 3600⟩) = (.limited 3597, some ⟨3, 3600⟩)
  ∧ rateLimitStep 3 3600 3600 (some ⟨3, 3600⟩) = (.allowed 2, some ⟨1, 7200⟩) :=
  rate_limit_fixed_window 0 1 2 3 3600
    (by decide) (by decide) (by decide) (by decide)

/-! ## Claims C2, C3, C4, C5, C10 — magic links -/

/-- The mark-used UPDATE matches rows by primary key only, so a lookup
by `(email, token_hash)` afterwards finds exactly what it found before,
with `used_at` set on the row whose id was written. -/
theorem find?_markUsed (email h : Str) (rowId now : Nat)
    (l : List MagicLinkRow) :
    (markUsed rowId now l).find? (tokenMatches email h)
      = (l.find? (tokenMatches email h)).map
          (fun r => if r.id = rowId then { r with used_at := some now } else r) := by
  unfold markUsed
  rw [List.find?_map]
  have hp : (tokenMatches email h) ∘
      (fun r => if r.id = rowId then { r with used_at := some now } else r)
      = tokenMatches email h := by
    funext r
    by_cases hid : r.id = rowId <;> simp [tokenMatches, hid]
  rw [hp]

/-- The write phase always answers with the 200 success body: it
re-checks nothing after the read phase. -/
theorem verifyCommit_isSuccess (P : Platform) (secret email : Str)
    (now : Nat) (stored : MagicLinkRow) (db : DBState) :
    ((verifyCommit P secret email now stored db).1).isSuccess = true := by
  unfold verifyCommit
  cases h : ({ db with tokens := markUsed stored.id now db.tokens } :
      DBState).users.find? (fun u => u.email == email) <;>
    simp [h, VerifyOutcome.isSuccess]

/-- The write phase leaves the token table with exactly the
mark-used UPDATE applied. -/
theorem verifyCommit_tokens (P : Platform) (secret email : Str)
    (now : Nat) (stored : MagicLinkRow) (db : DBState) :
    (verifyCommit P secret email now stored db).2.tokens
      = markUsed stored.id now db.tokens := by
  unfold verifyCommit
  cases h : ({ db with tokens := markUsed stored.id now db.tokens } :
      DBState).users.find? (fun u => u.email == email) <;> simp [h]

/-- C2: for every email and raw token, link verification fails with
InvalidLink when no stored row matches `(email, SHA-256(rawToken))`;
when a row matches, it fails with LinkExpired when the current time is
strictly greater than the row's `expiresAt` (so verification at expiry
— and hence at expiry minus one second — is not expired, and at expiry
plus one second is); when unexpired, it fails with LinkAlreadyUsed when
the row's `usedAt` is non-null; and only for a matching, unexpired,
unused row does verification succeed. -/
theorem magic_link_verify_cases (P : Platform) (secret email token : Str)
    (now : Nat) (db : DBState) :
    (findToken P email token db = none →
      (verifyMagicLink P secret email token now db).1 = .invalidLink)
  ∧ (∀ r, findToken P email token db = some r → r.expires_at < now →
      (verifyMagicLink P secret email token now db).1 = .linkExpired)
  ∧ (∀ r u, findToken P email token db = some r → ¬ r.expires_at < now →
      r.used_at = some u →
      (verifyMagicLink P secret email token now db).1 = .linkAlreadyUsed)
  ∧ (∀ r, findToken P email token db = some r → ¬ r.expires_at < now →
      r.used_at = none →
      ((verifyMagicLink P secret email token now db).1).isSuccess = true) := by
  refine ⟨?_, ?_, ?_, ?_⟩
  · intro h
    simp only [verifyMagicLink, verifyRead, h]
  · intro r hr hexp
    simp only [verifyMagicLink, verifyRead, hr, if_pos hexp]
  · intro r u hr hexp hused
    simp only [verifyMagicLink, verifyRead, hr, if_neg hexp, hused,
      Option.isSome_some, if_pos rfl, if_true]
  · intro r hr hexp hused
    simp only [verifyMagicLink, verifyRead, hr, if_neg hexp, hused,
      Option.isSome_none, Bool.false_eq_true, if_false]
    exact verifyCommit_isSuccess P secret email now r db

/-- The concrete store for the magic-link witnesses: one unused row for
`u@x.com` expiring at t = 1000000 ms, and no users. -/
def mlRow : MagicLinkRow := ⟨1, "u@x.com".data, CP.hash "tok-one".data, 1000000, none⟩

/-- A used variant of `mlRow` (consumed at t = 500000). -/
def mlRowUsed : MagicLinkRow := ⟨1, "u@x.com".data, CP.hash "tok-one".data, 1000000, some 500000⟩

/-- Store holding the unused row. -/
def mlDB : DBState := ⟨[mlRow], [], 2, 1⟩

/-- Store holding the used row. -/
def mlDBUsed : DBState := ⟨[mlRowUsed], [], 2, 1⟩

/-- Witness for C2: an unknown token is InvalidLink; the known token is
LinkExpired at expiry + 1 s, succeeds at expiry − 1 s (and at expiry),
and is LinkAlreadyUsed on the consumed row. -/
theorem magic_link_verify_cases_witness :
    (verifyMagicLink CP jwtSec "u@x.com".data "tok-two".data 999000 mlDB).1
      = .invalidLink
  ∧ (verifyMagicLink CP jwtSec "u@x.com".data "tok-one".data 1001000 mlDB).1
      = .linkExpired
  ∧ (verifyMagicLink CP jwtSec "u@x.com".data "tok-one".data 999000 mlDBUsed).1
      = .linkAlreadyUsed
  ∧ ((verifyMagicLink CP jwtSec "u@x.com".data "tok-one".data 999000 mlDB).1).isSuccess
      = true
  ∧ ((verifyMagicLink CP jwtSec "u@x.com".data "tok-one".data 1000000 mlDB).1).isSuccess
      = true :=
  ⟨(magic_link_verify_cases CP jwtSec "u@x.com".data "tok-two".data 999000 mlDB).1
      (by decide),
   (magic_link_verify_cases CP jwtSec "u@x.com".data "tok-one".data 1001000 mlDB).2.1
      mlRow (by decide) (by decide),
   (magic_link_verify_cases CP jwtSec "u@x.com".data "tok-one".data 999000 mlDBUsed).2.2.1
      mlRowUsed 500000 (by decide) (by decide) (by decide),
   (magic_link_verify_cases CP jwtSec "u@x.com".data "tok-one".data 999000 mlDB).2.2.2
      mlRow (by decide) (by decide) (by decide),
   (magic_link_verify_cases CP jwtSec "u@x.com".data "tok-one".data 1000000 mlDB).2.2.2
      mlRow (by decide) (by decide) (by decide)⟩

/-- C3: issuing a link for email E deletes every previously stored
link-token row for E before inserting the new row, so after two
sequential issuances the store holds exactly one row for E — the second
one — and verifying the first issued raw token fails with InvalidLink
(its hash no longer matches any stored row, the digests of the two
distinct random tokens being distinct). -/
theorem magic_link_latest_only (P : Platform) (secret E t1 t2 : Str)
    (n1 n2 tv : Nat) (db : DBState)
    (hhash : P.hash t1 ≠ P.hash t2) :
    (requestMagicLink P E t2 n2 (requestMagicLink P E t1 n1 db)).tokens.filter
        (fun r => r.email == E)
      = [⟨db.nextTokenId + 1, E, P.hash t2, n2 + 15 * 60 * 1000, none⟩]
  ∧ (verifyMagicLink P secret E t1 tv
        (requestMagicLink P E t2 n2 (requestMagicLink P E t1 n1 db))).1
      = .invalidLink := by
  set row2 : MagicLinkRow :=
    ⟨db.nextTokenId + 1, E, P.hash t2, n2 + 15 * 60 * 1000, none⟩ with hrow2
  have htoks : (requestMagicLink P E t2 n2 (requestMagicLink P E t1 n1 db)).tokens
      = ((requestMagicLink P E t1 n1 db).tokens.filter (fun r => !(r.email == E)))
        ++ [row2] := rfl
  have hkept : ∀ x ∈ (requestMagicLink P E t1 n1 db).tokens.filter
      (fun r => !(r.email == E)), (x.email == E) = false := by
    intro x hx
    have := (List.mem_filter.mp hx).2
    simpa using this
  constructor
  · rw [htoks, List.filter_append]
    have h1 : ((requestMagicLink P E t1 n1 db).tokens.filter
        (fun r => !(r.email == E))).filter (fun r => r.email == E) = [] := by
      rw [List.filter_filter]
      rw [List.filter_eq_nil_iff]
      intro a ha
      simp [Bool.and_comm, Bool.and_not_self]
    rw [h1]
    simp [hrow2]
  · have hnone : findToken P E t1
        (requestMagicLink P E t2 n2 (requestMagicLink P E t1 n1 db)) = none := by
      unfold findToken
      rw [htoks, List.find?_append]
      have hleft : ((requestMagicLink P E t1 n1 db).tokens.filter
          (fun r => !(r.email == E))).find? (tokenMatches E (P.hash t1)) = none := by
        rw [List.find?_eq_none]
        intro x hx
        simp [tokenMatches, hkept x hx]
      have hright : ([row2].find? (tokenMatches E (P.hash t1))) = none := by
        rw [List.find?_eq_none]
        intro x hx
        simp only [List.mem_singleton] at hx
        subst hx
        intro hcontra
        rw [hrow2] at hcontra
        simp only [tokenMatches, Bool.and_eq_true, beq_iff_eq] at hcontra
        exact hhash hcontra.2.symm
      rw [hleft, hright]
      rfl
    simp only [verifyMagicLink, verifyRead, hnone]

/-- Witness for C3: two issuances for `u@x.com` on top of a store that
already held a row for that email; the surviving row is the second, and
the first raw token verifies as InvalidLink. -/
theorem magic_link_latest_only_witness :
    (requestMagicLink CP "u@x.com".data "tok-b".data 2000
        (requestMagicLink CP "u@x.com".data "tok-a".data 1000 mlDB)).tokens.filter
        (fun r => r.email == "u@x.com".data)
      = [⟨3, "u@x.com".data, CP.hash "tok-b".data, 902000, none⟩]
  ∧ (verifyMagicLink CP jwtSec "u@x.com".data "tok-a".data 100000
        (requestMagicLink CP "u@x.com".data "tok-b".data 2000
          (requestMagicLink CP "u@x.com".data "tok-a".data 1000 mlDB))).1
      = .invalidLink :=
  magic_link_latest_only CP jwtSec "u@x.com".data "tok-a".data "tok-b".data
    1000 2000 100000 mlDB (by decide)

/-- C4: for every link token, after one successful (sequential)
verification — which sets the row's `usedAt` — a subsequent
verification with the same email and raw token fails with
LinkAlreadyUsed, even while the token is still within its expiry
window. -/
theorem magic_link_single_use (P : Platform) (secret email token : Str)
    (t t' : Nat) (db : DBState) (r : MagicLinkRow)
    (hfind : findToken P email token db = some r)
    (hunused : r.used_at = none)
    (hexp : ¬ r.expires_at < t) (hexp' : ¬ r.expires_at < t') :
    ((verifyMagicLink P secret email token t db).1).isSuccess = true
  ∧ (verifyMagicLink P secret email token t'
      (verifyMagicLink P secret email token t db).2).1 = .linkAlreadyUsed := by
  have hrun : verifyMagicLink P secret email token t db
      = verifyCommit P secret email t r db := by
    simp only [verifyMagicLink, verifyRead, hfind, if_neg hexp, hunused,
      Option.isSome_none, Bool.false_eq_true, if_false]
  constructor
  · rw [hrun]
    exact verifyCommit_isSuccess P secret email t r db
  · have hfind' : findToken P email token
        (verifyMagicLink P secret email token t db).2
        = some { r with used_at := some t } := by
      unfold findToken
      rw [hrun, verifyCommit_tokens, find?_markUsed]
      unfold findToken at hfind
      rw [hfind]
      simp
    generalize hdb : (verifyMagicLink P secret email token t db).2 = db2
    rw [hdb] at hfind'
    simp only [verifyMagicLink, verifyRead, hfind', if_neg hexp',
      Option.isSome_some, if_pos rfl, if_true]

/-- Witness for C4: on `mlDB`, verifying `tok-one` at t = 100000
succeeds, and verifying it again at t = 200000 — well within the
1000000 ms expiry — yields LinkAlreadyUsed. -/
theorem magic_link_single_use_witness :
    ((verifyMagicLink CP jwtSec "u@x.com".data "tok-one".data 100000 mlDB).1).isSuccess
      = true
  ∧ (verifyMagicLink CP jwtSec "u@x.com".data "tok-one".data 200000
      (verifyMagicLink CP jwtSec "u@x.com".data "tok-one".data 100000 mlDB).2).1
      = .linkAlreadyUsed :=
  magic_link_single_use CP jwtSec "u@x.com".data "tok-one".data 100000 200000
    mlDB mlRow (by decide) (by decide) (by decide) (by decide)

/-! ### Claim C5 — the mark-used step under concurrency

Each request runs in its own execution context sharing only the store,
so two verification requests for the same token can both complete their
read phase before either write commits. The handler's UPDATE matches on
the primary key alone — it carries no `used_at IS NULL` condition and
the affected-row count is never inspected — so both requests then
succeed. The theorem below exhibits this interleaving; the last
conjunct contrasts it with the sequential order, where the second
request is correctly rejected. -/

/-- The email of the racing requests. -/
def raceEmail : Str := "u@x.com".data

/-- The raw token both racing requests carry. -/
def raceToken : Str := "tok-race".data

/-- The single unused, unexpired row both requests read. -/
def raceRow : MagicLinkRow := ⟨1, raceEmail, CP.hash raceToken, 10000000, none⟩

/-- The store at the start of the race. -/
def raceDB : DBState := ⟨[raceRow], [], 2, 1⟩

set_option maxRecDepth 10000 in
/-- C5 fails on the code: with requests A (t = 1000) and B (t = 2000)
interleaved as read-A, read-B, commit-A, commit-B, both reads proceed
on the same row and both commits answer with the 200 success body —
the mark-used UPDATE is unconditional and zero-rows-affected is never
examined, so two concurrent verifications of the same token can both
succeed. Sequentially (read-B after commit-A) the second request is
rejected with LinkAlreadyUsed, which isolates the race as the cause. -/
theorem magic_link_mark_used_race :
    verifyRead CP raceEmail raceToken 1000 raceDB = .proceed raceRow
  ∧ verifyRead CP raceEmail raceToken 2000 raceDB = .proceed raceRow
  ∧ ((verifyCommit CP jwtSec raceEmail 1000 raceRow raceDB).1).isSuccess = true
  ∧ ((verifyCommit CP jwtSec raceEmail 2000 raceRow
        (verifyCommit CP jwtSec raceEmail 1000 raceRow raceDB).2).1).isSuccess
      = true
  ∧ (verifyMagicLink CP jwtSec raceEmail raceToken 2000
        (verifyMagicLink CP jwtSec raceEmail raceToken 1000 raceDB).2).1
      = .linkAlreadyUsed := by decide

/-! ### Claim C10 — null `firm_id` becomes the empty-string tenant -/

/-- C10: when link verification succeeds for a user whose stored
`firm_id` is null — including every auto-provisioned user, since
provisioning sets `email`, `full_name` and `role` but no `firm_id` —
both the access and the refresh token are issued from claims whose
`firm_id` is the empty string. -/
theorem null_firm_claims_empty_string (P : Platform) (secret email token : Str)
    (now : Nat) (db : DBState) (r : MagicLinkRow)
    (hfind : findToken P email token db = some r)
    (hunused : r.used_at = none) (hexp : ¬ r.expires_at < now)
    (hfirm : ∀ u, db.users.find? (fun v => v.email == email) = some u →
      u.firm_id = none) :
    ∃ u : UserRow, u.firm_id = none ∧
      (verifyMagicLink P secret email token now db).1 =
        .success (createToken P ⟨u.id, [], u.email, u.role⟩ secret 60 (now / 1000))
          (createToken P ⟨u.id, [], u.email, u.role⟩ secret 10080 (now / 1000))
          u.id u.email u.full_name u.role := by
  have hrun : verifyMagicLink P secret email token now db
      = verifyCommit P secret email now r db := by
    simp only [verifyMagicLink, verifyRead, hfind, if_neg hexp, hunused,
      Option.isSome_none, Bool.false_eq_true, if_false]
  rw [hrun]
  unfold verifyCommit
  dsimp only
  cases hu : List.find? (fun u => u.email == email) db.users with
  | some user =>
    have hf : user.firm_id = none :=
      hfirm user (by simpa using hu)
    refine ⟨user, hf, ?_⟩
    simp only [claimsOf, hf, Option.getD_none]
  | none =>
    refine ⟨⟨db.nextUserId, email, some (localPart email), none,
      "consultant".data⟩, rfl, ?_⟩
    simp only [claimsOf, Option.getD_none]

/-- Store for the C10 witness: the unused row of `mlDB` plus one
existing user for the email with a null `firm_id`. -/
def mlDBNullFirm : DBState :=
  ⟨[mlRow], [⟨5, "u@x.com".data, some "u".data, none, "consultant".data⟩], 2, 6⟩

/-- Witness for C10, both paths: on `mlDB` (no user row — the user is
auto-provisioned without a firm) and on `mlDBNullFirm` (an existing
user whose `firm_id` is null), successful verification issues both
tokens from claims with `firm_id = ""`. -/
theorem null_firm_claims_empty_string_witness :
    (∃ u : UserRow, u.firm_id = none ∧
      (verifyMagicLink CP jwtSec "u@x.com".data "tok-one".data 100000 mlDB).1 =
        .success (createToken CP ⟨u.id, [], u.email, u.role⟩ jwtSec 60 100)
          (createToken CP ⟨u.id, [], u.email, u.role⟩ jwtSec 10080 100)
          u.id u.email u.full_name u.role)
  ∧ (∃ u : UserRow, u.firm_id = none ∧
      (verifyMagicLink CP jwtSec "u@x.com".data "tok-one".data 100000 mlDBNullFirm).1 =
        .success (createToken CP ⟨u.id, [], u.email, u.role⟩ jwtSec 60 100)
          (createToken CP ⟨u.id, [], u.email, u.role⟩ jwtSec 10080 100)
          u.id u.email u.full_name u.role) :=
  ⟨null_firm_claims_empty_string CP jwtSec "u@x.com".data "tok-one".data 100000
      mlDB mlRow (by decide) (by decide) (by decide) (by decide),
   null_firm_claims_empty_string CP jwtSec "u@x.com".data "tok-one".data 100000
      mlDBNullFirm mlRow (by decide) (by decide) (by decide) (by decide)⟩

end InsightConsole
